import Mathlib

/-!
Shallow embedding of the brew-maintainer repository (Rust) and proofs about it.

Source files embedded:
* `src/brew_command.rs` — command descriptors, argv/env rendering, the error enum.
* `src/maintenance_command.rs` — the blocking and supervised executors and prompt detection.
* `src/formulae.rs` — the outdated-report data model and its serde decoding.
* `src/service.rs` — the maintainer orchestrator.
* `src/main.rs` — the program entry point.

External OS and library effects (process spawning, channels, the textual JSON
tokenizer) are modelled as explicit oracle inputs; everything the repository
itself computes is embedded as executable Lean definitions.
-/

namespace BrewMaintainer

/-- Environment mapping handed to every descriptor (`HashMap<&'static str, String>`
in the source); modelled as an association list. -/
abbrev Env := List (String × String)

/-- `BrewCommand` from `src/brew_command.rs` lines 7-12: a tagged variant over the
four brew invocations, each carrying its environment mapping. -/
inductive BrewCommand where
  | Update (envs : Env)
  | Outdated (envs : Env)
  | Upgrade (package_name : String) (envs : Env)
  | Cleanup (envs : Env)
deriving DecidableEq

/-- `BrewCommand::to_args` from `src/brew_command.rs` lines 16-33. -/
def BrewCommand.to_args : BrewCommand → List String
  | .Update _ => ["update"]
  | .Outdated _ => ["outdated", "--json"]
  | .Upgrade package_name _ => ["upgrade", package_name]
  | .Cleanup _ => ["cleanup"]

/-- `BrewCommand::to_env` from `src/brew_command.rs` lines 35-42: returns the
descriptor's env verbatim (a clone in the source). -/
def BrewCommand.to_env : BrewCommand → Env
  | .Update envs => envs
  | .Outdated envs => envs
  | .Upgrade _ envs => envs
  | .Cleanup envs => envs

/-- `BrewError` from `src/brew_command.rs` lines 45-53. -/
inductive BrewError where
  | ExecutionFailed (msg : String)
  | InputRequested
  | Timeout
deriving DecidableEq

/-- The `Display` rendering of `BrewError` generated by the `thiserror` attributes
at `src/brew_command.rs` lines 47, 49 and 51: each variant renders to a fixed
literal; no format placeholder consumes the carried message. -/
def BrewError.displayMessage : BrewError → String
  | .ExecutionFailed _ => "Error executing the brew command"
  | .InputRequested => "Error Input request cannot be fulfilled"
  | .Timeout => "Error command takes more than the timeout requested"

/-- Boolean result test used when the orchestrator pattern-matches `if let Err(_)`. -/
def isErrB : Except BrewError α → Bool
  | .error _ => true
  | .ok _ => false

/-! ### Prompt detection (`src/maintenance_command.rs` lines 117-138) -/

/-- The fixed pattern array from `src/maintenance_command.rs` lines 120-135. -/
def promptPatterns : List String :=
  ["y/n", "(y/n)", "[y/n]", "yes/no", "(yes/no)", "[yes/no]", "press enter",
   "continue?", "proceed?", "password:", "passphrase:", "are you sure",
   "do you want", "would you like"]

/-- Substring search over character lists, modelling Rust `str::contains` for the
ASCII needles used here (at character granularity, UTF-8 byte search and
character search agree for ASCII needles). -/
def listContains (hay sub : List Char) : Bool :=
  sub.isPrefixOf hay ||
    match hay with
    | [] => false
    | _ :: t => listContains t sub

/-- `is_waiting_for_input` from `src/maintenance_command.rs` lines 117-138:
lowercase the line, then test whether any fixed pattern occurs in it.
`String.toLower` (per-character ASCII lowercasing) models Rust
`str::to_lowercase`, which agrees with it on ASCII input. -/
def is_waiting_for_input (line : String) : Bool :=
  let line_lower := line.toLower
  promptPatterns.any fun pattern => listContains line_lower.data pattern.data

/-! ### UTF-8 (std library model used by `execute`)

`String::from_utf8` and `String::from_utf8_lossy` are standard-library
routines; they are modelled here by an executable decoder over byte lists that
follows the UTF-8 validation ranges Rust enforces (RFC 3629: no overlongs, no
surrogates, scalar values below 0x110000). -/

/-- A Unicode scalar value (what a decoded UTF-8 sequence may denote). -/
abbrev ScalarValue (c : Nat) : Prop := c < 0xD800 ∨ (0xE000 ≤ c ∧ c < 0x110000)

/-- Is `b` a UTF-8 continuation byte? -/
def isCont (b : Nat) : Bool := 0x80 ≤ b && b ≤ 0xBF

/-- Admissible second byte of a three-byte sequence headed by `b`
(Rust's validation table: E0 narrows to A0..BF, ED narrows to 80..9F). -/
def utf8Second3 (b b1 : Nat) : Bool :=
  if b = 0xE0 then 0xA0 ≤ b1 && b1 ≤ 0xBF
  else if b = 0xED then 0x80 ≤ b1 && b1 ≤ 0x9F
  else isCont b1

/-- Admissible second byte of a four-byte sequence headed by `b`
(F0 narrows to 90..BF, F4 narrows to 80..8F). -/
def utf8Second4 (b b1 : Nat) : Bool :=
  if b = 0xF0 then 0x90 ≤ b1 && b1 ≤ 0xBF
  else if b = 0xF4 then 0x80 ≤ b1 && b1 ≤ 0x8F
  else isCont b1

mutual

/-- Strict UTF-8 decoding of a byte list into scalar values; `none` on any
ill-formed sequence, exactly where Rust `String::from_utf8` errors. The
2/3/4-byte continuations live in mutually recursive helpers. -/
def utf8DecodeList : List Nat → Option (List Nat)
  | [] => some []
  | b :: rest =>
    if b < 0x80 then (utf8DecodeList rest).map (b :: ·)
    else if 0xC2 ≤ b && b ≤ 0xDF then utf8Decode2 b rest
    else if 0xE0 ≤ b && b ≤ 0xEF then utf8Decode3 b rest
    else if 0xF0 ≤ b && b ≤ 0xF4 then utf8Decode4 b rest
    else none

def utf8Decode2 (b : Nat) : List Nat → Option (List Nat)
  | b1 :: rest1 =>
    if isCont b1 then (utf8DecodeList rest1).map (((b - 0xC0) * 64 + (b1 - 0x80)) :: ·)
    else none
  | [] => none

def utf8Decode3 (b : Nat) : List Nat → Option (List Nat)
  | b1 :: b2 :: rest2 =>
    if utf8Second3 b b1 && isCont b2 then
      (utf8DecodeList rest2).map (((b - 0xE0) * 4096 + (b1 - 0x80) * 64 + (b2 - 0x80)) :: ·)
    else none
  | _ => none

def utf8Decode4 (b : Nat) : List Nat → Option (List Nat)
  | b1 :: b2 :: b3 :: rest3 =>
    if utf8Second4 b b1 && isCont b2 && isCont b3 then
      (utf8DecodeList rest3).map
        (((b - 0xF0) * 0x40000 + (b1 - 0x80) * 4096 + (b2 - 0x80) * 64 + (b3 - 0x80)) :: ·)
    else none
  | _ => none

end

mutual

/-- Lossy UTF-8 decoding (`String::from_utf8_lossy` model): same acceptance
ranges; an ill-formed sequence contributes U+FFFD and the scan resumes at the
byte after the rejected lead byte. -/
def utf8LossyList : List Nat → List Nat
  | [] => []
  | b :: rest =>
    if b < 0x80 then b :: utf8LossyList rest
    else if 0xC2 ≤ b && b ≤ 0xDF then utf8Lossy2 b rest
    else if 0xE0 ≤ b && b ≤ 0xEF then utf8Lossy3 b rest
    else if 0xF0 ≤ b && b ≤ 0xF4 then utf8Lossy4 b rest
    else 0xFFFD :: utf8LossyList rest
termination_by l => 2 * l.length
decreasing_by all_goals (simp only [List.length_cons]; omega)

def utf8Lossy2 (b : Nat) : List Nat → List Nat
  | b1 :: rest1 =>
    if isCont b1 then ((b - 0xC0) * 64 + (b1 - 0x80)) :: utf8LossyList rest1
    else 0xFFFD :: utf8LossyList (b1 :: rest1)
  | [] => [0xFFFD]
termination_by l => 2 * l.length + 1
decreasing_by all_goals (simp only [List.length_cons]; omega)

def utf8Lossy3 (b : Nat) : List Nat → List Nat
  | b1 :: b2 :: rest2 =>
    if utf8Second3 b b1 && isCont b2 then
      ((b - 0xE0) * 4096 + (b1 - 0x80) * 64 + (b2 - 0x80)) :: utf8LossyList rest2
    else 0xFFFD :: utf8LossyList (b1 :: b2 :: rest2)
  | _ => [0xFFFD]
termination_by l => 2 * l.length + 1
decreasing_by all_goals (simp only [List.length_cons]; omega)

def utf8Lossy4 (b : Nat) : List Nat → List Nat
  | b1 :: b2 :: b3 :: rest3 =>
    if utf8Second4 b b1 && isCont b2 && isCont b3 then
      ((b - 0xF0) * 0x40000 + (b1 - 0x80) * 4096 + (b2 - 0x80) * 64 + (b3 - 0x80))
        :: utf8LossyList rest3
    else 0xFFFD :: utf8LossyList (b1 :: b2 :: b3 :: rest3)
  | _ => [0xFFFD]
termination_by l => 2 * l.length + 1
decreasing_by all_goals (simp only [List.length_cons]; omega)

end

/-- Reference UTF-8 encoding of one scalar value. -/
def utf8EncodeChar (c : Nat) : List Nat :=
  if c < 0x80 then [c]
  else if c < 0x800 then [0xC0 + c / 64, 0x80 + c % 64]
  else if c < 0x10000 then [0xE0 + c / 4096, 0x80 + c / 64 % 64, 0x80 + c % 64]
  else [0xF0 + c / 0x40000, 0x80 + c / 4096 % 64, 0x80 + c / 64 % 64, 0x80 + c % 64]

/-- Reference UTF-8 encoding of a scalar-value list. -/
def utf8Encode (cs : List Nat) : List Nat := cs.flatMap utf8EncodeChar

/-- Pack decoded scalar values into a Lean `String` (the model of Rust `String`). -/
def natsToString (cs : List Nat) : String := ⟨cs.map Char.ofNat⟩

/-- `String::from_utf8` model: the decoded text, or a decoder message. -/
def from_utf8 (bs : List Nat) : Except String String :=
  match utf8DecodeList bs with
  | some cs => .ok (natsToString cs)
  | none => .error "invalid utf-8 sequence"

/-- `String::from_utf8_lossy` model. -/
def from_utf8_lossy (bs : List Nat) : String := natsToString (utf8LossyList bs)

/-! ### Blocking executor (`src/maintenance_command.rs` lines 19-33) -/

/-- `std::process::Output` as captured by `Command::output()`: exit status
(success flag and numeric code) plus the raw stdout and stderr bytes. -/
structure ProcessOutput where
  status_success : Bool
  status_code : Option Int
  stdout : List Nat
  stderr : List Nat
deriving DecidableEq

/-- Outcome of the OS `output()` call: either a spawn/IO error message or the
captured output. This is the oracle input of the blocking `execute`. -/
inductive SpawnOutcome where
  | spawnErr (osMsg : String)
  | spawned (out : ProcessOutput)
deriving DecidableEq

namespace RealBrewCommand

/-- `RealBrewCommand::execute` from `src/maintenance_command.rs` lines 19-33:
spawn failure maps to `ExecutionFailed` with the OS message; exit-zero returns
stdout decoded as UTF-8 (decode failure maps to `ExecutionFailed` with the
decoder message); non-zero exit returns `ExecutionFailed` carrying the
lossily-decoded stderr text. -/
def execute (cmd : BrewCommand) (os : SpawnOutcome) : Except BrewError String :=
  let _args := cmd.to_args
  let _env_map := cmd.to_env
  match os with
  | .spawnErr e => .error (.ExecutionFailed e)
  | .spawned output =>
    if output.status_success then
      match from_utf8 output.stdout with
      | .ok s => .ok s
      | .error e => .error (.ExecutionFailed e)
    else
      .error (.ExecutionFailed (from_utf8_lossy output.stderr))

end RealBrewCommand

/-! ### Supervised executor (`src/maintenance_command.rs` lines 45-114, 140-148) -/

/-- Exit status of the supervised child (`std::process::ExitStatus`). -/
structure ExitStat where
  success : Bool
  code : Option Int
deriving DecidableEq

/-- `ProcessEvent` from `src/maintenance_command.rs` lines 186-189: what the
completion and timeout monitors put on the event channel (an IO error is
carried as its message text). -/
inductive ProcessEvent where
  | Error (e : BrewError)
  | Completed (res : Except String ExitStat)

/-- Oracle input of one supervised call: the outcome of the OS spawn, the
child's reported PID, the state of the input-detection channel at the loop's
single `try_recv` poll, and the first event delivered on the event channel
(`none` modelling a closed channel). This captures the nondeterminism resolved
by the OS and the scheduler; the dispatch logic itself is embedded below. -/
structure SupvWorld where
  spawnResult : Except String Unit
  pid : Option Nat
  inputDetected : Option BrewError
  firstEvent : Option ProcessEvent

/-- Observable actions of a supervised call, recorded in order. -/
inductive SupvAction where
  | spawn (args : List String) (envs : Env)
  | killPid (pid : Nat)
deriving DecidableEq

/-- Debug rendering of `Option<i32>` (`{:?}` in the source format string). -/
def optCodeRepr : Option Int → String
  | some n => "Some(" ++ toString n ++ ")"
  | none => "None"

namespace RealBrewCommand

/-- `spawn_brew_process` from `src/maintenance_command.rs` lines 140-148: pass
argv straight to the OS spawn — there is no inspection of the arguments — and
map a spawn error to `ExecutionFailed` with the OS message. -/
def spawn_brew_process (args : List String) (envs : Env) (osSpawn : Except String Unit) :
    List SupvAction × Except BrewError Unit :=
  ([.spawn args envs],
   match osSpawn with
   | .error e => .error (.ExecutionFailed e)
   | .ok _ => .ok ())

/-- `RealBrewCommand::execute_with_timeout` from `src/maintenance_command.rs`
lines 45-114: clamp the timeout, render argv and env, spawn (failure and a
missing PID each return `ExecutionFailed`), then dispatch on the first
observation — input-detection poll first, then the event channel: a channel
`Error` (the timeout monitor's `Timeout`) kills and returns it, successful
completion returns `Ok`, non-zero completion returns `ExecutionFailed` with
the formatted exit code, an IO error its message, a closed channel a fixed
message — and finally re-issue the kill unconditionally. -/
def execute_with_timeout (cmd : BrewCommand) (timeoutMs : Int) (w : SupvWorld) :
    List SupvAction × Except BrewError Unit :=
  let _std_timeout := max timeoutMs 0
  let args := cmd.to_args
  let env_map := cmd.to_env
  let (spawnActs, spawned) := spawn_brew_process args env_map w.spawnResult
  match spawned with
  | .error e => (spawnActs, .error e)
  | .ok _ =>
    match w.pid with
    | none => (spawnActs, .error (.ExecutionFailed "No PID"))
    | some child_id =>
      let (loopKills, result) :=
        match w.inputDetected with
        | some err => ([SupvAction.killPid child_id], Except.error err)
        | none =>
          match w.firstEvent with
          | some (.Error e) => ([SupvAction.killPid child_id], Except.error e)
          | some (.Completed (.ok status)) =>
            if status.success then ([], Except.ok ())
            else ([], Except.error (.ExecutionFailed
              ("Process exited with code: " ++ optCodeRepr status.code)))
          | some (.Completed (.error e)) => ([], Except.error (.ExecutionFailed e))
          | none => ([], Except.error (.ExecutionFailed "Event channel closed"))
      (spawnActs ++ loopKills ++ [SupvAction.killPid child_id], result)

end RealBrewCommand

/-! ### Outdated report (`src/formulae.rs`) -/

/-- `Package` from `src/formulae.rs` lines 25-33. `pinned_version` carries
`#[serde(default)]`, so a missing field decodes to `none`. -/
structure Package where
  name : String
  installed_versions : List String
  current_version : String
  pinned : Bool
  pinned_version : Option String
deriving DecidableEq

/-- `OutdatedPackages` from `src/formulae.rs` lines 7-11. -/
structure OutdatedPackages where
  formulae : List Package
  casks : List Package
deriving DecidableEq

/-- JSON documents, as produced by the (external) `serde_json` tokenizer. The
textual tokenizer itself stays an oracle `String → Option Json`; the structural
decoding that the derived `Deserialize` impls of `Package` and
`OutdatedPackages` perform on the document is embedded concretely below. -/
inductive Json where
  | null
  | bool (b : Bool)
  | num (n : Int)
  | str (s : String)
  | arr (items : List Json)
  | obj (fields : List (String × Json))

/-- First value bound to key `k` in an object's field list. -/
def getField (fields : List (String × Json)) (k : String) : Option Json :=
  (fields.find? fun kv => kv.1 == k).map (·.2)

/-- Decode a JSON string. -/
def decodeStr : Json → Option String
  | .str s => some s
  | _ => none

/-- Decode a JSON array of strings. -/
def decodeStrList : Json → Option (List String)
  | .arr items => items.mapM decodeStr
  | _ => none

/-- Decode a JSON boolean. -/
def decodeBool : Json → Option Bool
  | .bool b => some b
  | _ => none

/-- Decode `Option<String>`: serde maps `null` to `None` and a string to `Some`. -/
def decodeOptStr : Json → Option (Option String)
  | .null => some none
  | .str s => some (some s)
  | _ => none

/-- The derived `Deserialize` of `Package` (`src/formulae.rs` lines 25-33):
`name`, `installed_versions`, `current_version` and `pinned` are required with
their field types; `pinned_version` defaults to absent when the field is
missing (`#[serde(default)]`); unknown fields are ignored (serde's default). -/
def decodePackage : Json → Option Package
  | .obj fields => do
    let name ← (getField fields "name").bind decodeStr
    let installed_versions ← (getField fields "installed_versions").bind decodeStrList
    let current_version ← (getField fields "current_version").bind decodeStr
    let pinned ← (getField fields "pinned").bind decodeBool
    let pinned_version ←
      match getField fields "pinned_version" with
      | none => some none
      | some j => decodeOptStr j
    some ⟨name, installed_versions, current_version, pinned, pinned_version⟩
  | _ => none

/-- Decode a JSON array of packages. -/
def decodePackageList : Json → Option (List Package)
  | .arr items => items.mapM decodePackage
  | _ => none

/-- The derived `Deserialize` of `OutdatedPackages` (`src/formulae.rs` lines
7-11): an object with the two required list fields, order preserved. -/
def decodeOutdatedPackages : Json → Option OutdatedPackages
  | .obj fields => do
    let formulae ← (getField fields "formulae").bind decodePackageList
    let casks ← (getField fields "casks").bind decodePackageList
    some ⟨formulae, casks⟩
  | _ => none

/-- `serde_json::from_str` for `OutdatedPackages`: tokenize (oracle `jp`), then
structurally decode. -/
def fromStr (jp : String → Option Json) (s : String) : Option OutdatedPackages :=
  (jp s).bind decodeOutdatedPackages

/-! ### Orchestrator (`src/service.rs`) -/

/-- Modelled from the spec: `OutdatedPackages::iter`, called at
`src/service.rs` line 33, has no definition under `src/`; the spec fixes the
iteration as "each package in formulae ∪ casks (formulae first, original
order)". -/
def OutdatedPackages.iter (o : OutdatedPackages) : List Package :=
  o.formulae ++ o.casks

/-- The `CommandExecutor` trait (`src/brew_command.rs` lines 55-59) as a
deterministic oracle: responses of the blocking `execute`, the inherited
environment, and responses of the supervised `execute_with_timeout`
(timeouts in milliseconds, `chrono::Duration::num_milliseconds`). -/
structure CommandExecutor where
  execute : BrewCommand → Except BrewError String
  envs : Env
  execute_with_timeout : BrewCommand → Int → Except BrewError Unit

/-- One executor call as recorded in a run trace. -/
inductive ExecCall where
  | blocking (cmd : BrewCommand)
  | timed (cmd : BrewCommand) (timeoutMs : Int)
deriving DecidableEq

/-- A Rust function outcome that may also be a panic (`expect`). -/
inductive PanicOr (α : Type) where
  | ret (a : α)
  | panicked (msg : String)

/-- `BrewMaintainer::update_reference_repositories` (`src/service.rs` lines
19-21): one blocking `Update` call with the executor's env. -/
def update_reference_repositories (E : CommandExecutor) :
    List ExecCall × Except BrewError String :=
  ([.blocking (.Update E.envs)], E.execute (.Update E.envs))

/-- `BrewMaintainer::find_outdated_packages` (`src/service.rs` lines 23-27):
one blocking `Outdated` call; its stdout is parsed with
`serde_json::from_str(..).expect("error on parsing")` — a malformed document
panics rather than producing an `Err`. -/
def find_outdated_packages (E : CommandExecutor) (jp : String → Option Json) :
    List ExecCall × PanicOr (Except BrewError OutdatedPackages) :=
  ([.blocking (.Outdated E.envs)],
   match E.execute (.Outdated E.envs) with
   | .error e => .ret (.error e)
   | .ok outdated_json =>
     match fromStr jp outdated_json with
     | some output => .ret (.ok output)
     | none => .panicked "error on parsing")

/-- The `for package in outdated_packages.iter()` loop body of
`upgrade_packages_with_timeout` (`src/service.rs` lines 32-44): one supervised
`Upgrade` call per package; an `Err(_)` pushes the package onto the failure
list and the loop continues. Returns the call trace and the failure list. -/
def upgradeLoop (E : CommandExecutor) (timeoutMs : Int) :
    List Package → List ExecCall × List Package
  | [] => ([], [])
  | package :: rest =>
    let cmd := BrewCommand.Upgrade package.name E.envs
    let r := E.execute_with_timeout cmd timeoutMs
    let tail := upgradeLoop E timeoutMs rest
    (.timed cmd timeoutMs :: tail.1, if isErrB r then package :: tail.2 else tail.2)

/-- `BrewMaintainer::upgrade_packages_with_timeout` (`src/service.rs` lines
29-46): run the loop over `iter` and return `Ok` with the failure list. -/
def upgrade_packages_with_timeout (E : CommandExecutor) (o : OutdatedPackages)
    (timeoutMs : Int) : List ExecCall × Except BrewError (List Package) :=
  let r := upgradeLoop E timeoutMs o.iter
  (r.1, .ok r.2)

/-- `BrewMaintainer::cleanup` (`src/service.rs` lines 48-50). -/
def cleanup (E : CommandExecutor) : List ExecCall × Except BrewError String :=
  ([.blocking (.Cleanup E.envs)], E.execute (.Cleanup E.envs))

/-- Outcome of one `run_maintenance` call: success, an error wrapped with its
`anyhow` context string, or a panic. -/
inductive RunOutcome where
  | ok
  | failed (ctx : String) (e : BrewError)
  | panicked (msg : String)

/-- `run_maintenance` (`src/service.rs` lines 53-70): the four phases in
sequence, each `?`-propagated error wrapped with its context string; phase 3
uses `Duration::minutes(5)` = 300000 ms. The trace records every executor
call made. -/
def run_maintenance (E : CommandExecutor) (jp : String → Option Json) :
    List ExecCall × RunOutcome :=
  let (t1, r1) := update_reference_repositories E
  match r1 with
  | .error e => (t1, .failed "\u274C Failed to update reference repositories" e)
  | .ok _ =>
    let (t2, r2) := find_outdated_packages E jp
    match r2 with
    | .panicked m => (t1 ++ t2, .panicked m)
    | .ret (.error e) => (t1 ++ t2, .failed "\u274C Failed in finding outdated packages" e)
    | .ret (.ok outdated_packages) =>
      let (t3, r3) := upgrade_packages_with_timeout E outdated_packages 300000
      match r3 with
      | .error e =>
        (t1 ++ t2 ++ t3, .failed "\u274C Failure occurred while upgrading packages" e)
      | .ok _failed_packages =>
        let (t4, r4) := cleanup E
        match r4 with
        | .error e => (t1 ++ t2 ++ t3 ++ t4, .failed "\u274C Failed to cleanup" e)
        | .ok _ => (t1 ++ t2 ++ t3 ++ t4, .ok)

/-! ### Entry point (`src/main.rs` lines 43-75) -/

/-- The log events `main` emits per step. -/
inductive LogEvent where
  | stepFailed (desc : String) (stderrText : String)
  | stepCompleted (desc : String)
  | stepSpawnError (desc : String) (errMsg : String)
deriving DecidableEq

/-- The hard-coded step table of `main` (`src/main.rs` lines 48-52). -/
def mainSteps : List (String × List String) :=
  [("brew update", ["update"]),
   ("brew upgrade", ["upgrade", "--quiet"]),
   ("brew cleanup", ["cleanup"])]

/-- `main` from `src/main.rs` lines 43-75, with the OS `Command::output()`
calls as an oracle from argv to outcome: every step outcome — spawn error,
non-zero exit, success — is merely logged and the loop continues; `main`
returns `()`, so the process exit code is 0 on every path. The model returns
the emitted log events and that exit code. -/
def mainRun (osRun : List String → Except String ProcessOutput) : List LogEvent × Nat :=
  (mainSteps.map (fun step =>
    match osRun step.2 with
    | .ok out =>
      if !out.status_success then
        .stepFailed step.1 (from_utf8_lossy out.stderr)
      else
        .stepCompleted step.1
    | .error e => .stepSpawnError step.1 e),
   0)

/-! ### Auxiliary definitions for the statements below -/

/-- The fourteen prompt substrings as the specification lists them (§4.2.3);
a second, spec-side copy against which the implementation's pattern table is
compared. -/
def promptPatternsSpec : List String :=
  ["y/n", "(y/n)", "[y/n]", "yes/no", "(yes/no)", "[yes/no]", "press enter",
   "continue?", "proceed?", "password:", "passphrase:", "are you sure",
   "do you want", "would you like"]

/-- Does a `find_outdated_packages` outcome return a decode-error result (an
`Err` actually handed back to the caller)? -/
def isRetErr : PanicOr (Except BrewError α) → Bool
  | .ret (.error _) => true
  | _ => false

/-- ASCII text as its UTF-8 byte list. -/
def utf8BytesOf (s : String) : List Nat := s.data.map Char.toNat

/-- Executor whose `Outdated` phase hands back text the JSON tokenizer rejects. -/
def garbageExecutor : CommandExecutor where
  execute := fun _ => .ok "not json"
  envs := []
  execute_with_timeout := fun _ _ => .ok ()

/-- A JSON tokenizer oracle that rejects every input. -/
def jpRejectAll : String → Option Json := fun _ => none

/-- Executor whose `Update` phase fails; used to exercise the refresh-failure
path of `run_maintenance`. -/
def updateFailsExecutor : CommandExecutor where
  execute := fun cmd =>
    match cmd with
    | .Update _ => .error (.ExecutionFailed "network unreachable")
    | _ => .ok ""
  envs := [("HOME", "/home/u"), ("PATH", "/usr/bin")]
  execute_with_timeout := fun _ _ => .ok ()

/-- OS oracle for `main` under which the `brew update` step exits non-zero and
the remaining steps succeed. -/
def updateFailsOsRun : List String → Except String ProcessOutput := fun args =>
  if args == ["update"] then
    .ok ⟨false, some 1, [], utf8BytesOf "network unreachable"⟩
  else
    .ok ⟨true, some 0, [], []⟩

/-- Supervised-call world: spawn succeeds, PID 42, no prompt detected, child
completes successfully. -/
def quietSuccessWorld : SupvWorld :=
  ⟨.ok (), some 42, none, some (.Completed (.ok ⟨true, some 0⟩))⟩

/-- Outdated-report item whose `pinned` field is true but which carries no
`pinned_version` field at all. -/
def pinnedNoVersionItem : Json :=
  .obj [("name", .str "qux"), ("installed_versions", .arr [.str "2.0"]),
        ("current_version", .str "2.3"), ("pinned", .bool true)]

/-- Outdated report containing `pinnedNoVersionItem` as its only formula. -/
def pinnedNoVersionDoc : Json :=
  .obj [("formulae", .arr [pinnedNoVersionItem]), ("casks", .arr [])]

/-! ## Theorems -/

/-- The substring search agrees with the infix relation. -/
theorem listContains_iff (hay sub : List Char) :
    listContains hay sub = true ↔ sub <:+: hay := by
  induction hay with
  | nil =>
    simp [listContains, List.isPrefixOf_iff_prefix]
  | cons h t ih =>
    rw [listContains]
    simp [ List.isPrefixOf_iff_prefix, List.infix_cons_iff, ih]

/-- C5: `is_waiting_for_input` returns true exactly when the lowercased line
contains at least one of the fourteen fixed substrings of the specification's
pattern set; the match is against the lowercased line (case-insensitive) and a
match anywhere in the line suffices (infix position). -/
theorem is_waiting_for_input_iff_prompt (line : String) :
    is_waiting_for_input line = true ↔
      ∃ p ∈ promptPatternsSpec, p.data <:+: line.toLower.data := by
  have hspec : promptPatternsSpec = promptPatterns := rfl
  rw [hspec]
  unfold is_waiting_for_input
  simp only [List.any_eq_true, listContains_iff]

/-- C10: the `Display` rendering of `BrewError::ExecutionFailed(m)` is the fixed
string "Error executing the brew command" for every message `m` — the rendering
is independent of the carried message — and `InputRequested` and `Timeout`
render to their fixed strings as well. -/
theorem displayMessage_fixed :
    (∀ m, BrewError.displayMessage (.ExecutionFailed m) = "Error executing the brew command") ∧
    (∀ m₁ m₂, BrewError.displayMessage (.ExecutionFailed m₁) =
      BrewError.displayMessage (.ExecutionFailed m₂)) ∧
    BrewError.displayMessage .InputRequested = "Error Input request cannot be fulfilled" ∧
    BrewError.displayMessage .Timeout = "Error command takes more than the timeout requested" :=
  ⟨fun _ => rfl, fun _ _ => rfl, rfl, rfl⟩

/-- C7 counterexample: for the descriptor `Upgrade` with the empty package
name, the rendered argv is `["upgrade", ""]`, which does contain an empty
string — refuting the claim's "argv contains no empty strings" for every
descriptor. -/
theorem to_args_empty_name_cex :
    BrewCommand.to_args (.Upgrade "" []) = ["upgrade", ""] ∧
    "" ∈ BrewCommand.to_args (.Upgrade "" []) := by
  exact ⟨rfl, by simp [BrewCommand.to_args]⟩

/-- C7 (amended): the argv rendering is the stated pure mapping
(Update→["update"], Outdated→["outdated","--json"], Upgrade(n)→["upgrade",n] of
length 2, Cleanup→["cleanup"]), its first element is always one of update,
outdated, upgrade, cleanup, and — provided any `Upgrade` name is non-empty —
the rendered argv contains no empty strings. -/
theorem to_args_spec :
    (∀ envs, (BrewCommand.Update envs).to_args = ["update"]) ∧
    (∀ envs, (BrewCommand.Outdated envs).to_args = ["outdated", "--json"]) ∧
    (∀ n envs, (BrewCommand.Upgrade n envs).to_args = ["upgrade", n] ∧
      (BrewCommand.Upgrade n envs).to_args.length = 2) ∧
    (∀ envs, (BrewCommand.Cleanup envs).to_args = ["cleanup"]) ∧
    (∀ d : BrewCommand, d.to_args.head? = some "update" ∨
      d.to_args.head? = some "outdated" ∨ d.to_args.head? = some "upgrade" ∨
      d.to_args.head? = some "cleanup") ∧
    (∀ d : BrewCommand, (∀ n envs, d = .Upgrade n envs → n ≠ "") →
      "" ∉ d.to_args) := by
  refine ⟨fun _ => rfl, fun _ => rfl, fun _ _ => ⟨rfl, rfl⟩, fun _ => rfl, ?_, ?_⟩
  · intro d
    cases d <;> simp [BrewCommand.to_args]
  · intro d hname
    cases d with
    | Upgrade n envs =>
      have hn : n ≠ "" := hname n envs rfl
      simp [BrewCommand.to_args, hn]
      exact fun h => hn h.symm
    | Update envs => simp [BrewCommand.to_args]
    | Outdated envs => simp [BrewCommand.to_args]
    | Cleanup envs => simp [BrewCommand.to_args]

/-- C7 witness: the amended no-empty-strings clause applied at the concrete
descriptor `Upgrade "foo"`. -/
theorem to_args_spec_witness :
    "" ∉ (BrewCommand.Upgrade "foo" []).to_args :=
  to_args_spec.2.2.2.2.2 (.Upgrade "foo" [])
    (fun n envs h => by cases h; decide)

/-- The upgrade loop's trace is one timed `Upgrade` call per package, in list
order. -/
theorem upgradeLoop_trace (E : CommandExecutor) (t : Int) (ps : List Package) :
    (upgradeLoop E t ps).1 =
      ps.map fun p => .timed (.Upgrade p.name E.envs) t := by
  induction ps with
  | nil => rfl
  | cons p rest ih => simp [upgradeLoop, ih]

/-- The upgrade loop's failure list keeps exactly the packages whose call
errored, in list order. -/
theorem upgradeLoop_failed (E : CommandExecutor) (t : Int) (ps : List Package) :
    (upgradeLoop E t ps).2 =
      ps.filter fun p => isErrB (E.execute_with_timeout (.Upgrade p.name E.envs) t) := by
  induction ps with
  | nil => rfl
  | cons p rest ih =>
    simp [upgradeLoop, List.filter_cons, ih]

/-- C1: for every report and timeout, `upgrade_packages_with_timeout` performs
exactly one `execute_with_timeout` call per package with an `Upgrade`
descriptor carrying that package's name, iterating the formulae list first and
then the casks list in their original order; it always returns `Ok`, and the
returned list is exactly the packages whose call returned an error (any
`BrewError`), in iteration order — so a failed package never stops the
iteration. -/
theorem upgrade_packages_with_timeout_spec (E : CommandExecutor)
    (o : OutdatedPackages) (t : Int) :
    upgrade_packages_with_timeout E o t =
      ((o.formulae ++ o.casks).map (fun p => .timed (.Upgrade p.name E.envs) t),
       .ok ((o.formulae ++ o.casks).filter
         fun p => isErrB (E.execute_with_timeout (.Upgrade p.name E.envs) t))) := by
  have h1 := upgradeLoop_trace E t (o.formulae ++ o.casks)
  have h2 := upgradeLoop_failed E t (o.formulae ++ o.casks)
  simp only [upgrade_packages_with_timeout, OutdatedPackages.iter, h1, h2]

/-- C2: `run_maintenance` runs the four phases strictly in order (refresh,
list-outdated, upgrade-each, cleanup); a refresh error aborts with an error
wrapped with a context carrying the description "Failed to update reference
repositories" and no later executor call is made; a phase-2 error likewise
aborts before phases 3 and 4; a phase-4 error makes the run fail with its
phase description after the earlier phases ran in order; and the three context
strings do carry their phase descriptions. -/
theorem run_maintenance_phase_policy (E : CommandExecutor) (jp : String → Option Json) :
    (∀ e, E.execute (.Update E.envs) = .error e →
      run_maintenance E jp =
        ([.blocking (.Update E.envs)],
         .failed "❌ Failed to update reference repositories" e)) ∧
    (∀ u e, E.execute (.Update E.envs) = .ok u →
      E.execute (.Outdated E.envs) = .error e →
      run_maintenance E jp =
        ([.blocking (.Update E.envs), .blocking (.Outdated E.envs)],
         .failed "❌ Failed in finding outdated packages" e)) ∧
    (∀ u s o e, E.execute (.Update E.envs) = .ok u →
      E.execute (.Outdated E.envs) = .ok s → fromStr jp s = some o →
      E.execute (.Cleanup E.envs) = .error e →
      run_maintenance E jp =
        ([.blocking (.Update E.envs), .blocking (.Outdated E.envs)] ++
          (o.formulae ++ o.casks).map
            (fun p => .timed (.Upgrade p.name E.envs) 300000) ++
          [.blocking (.Cleanup E.envs)],
         .failed "❌ Failed to cleanup" e)) ∧
    (∀ u s o c, E.execute (.Update E.envs) = .ok u →
      E.execute (.Outdated E.envs) = .ok s → fromStr jp s = some o →
      E.execute (.Cleanup E.envs) = .ok c →
      run_maintenance E jp =
        ([.blocking (.Update E.envs), .blocking (.Outdated E.envs)] ++
          (o.formulae ++ o.casks).map
            (fun p => .timed (.Upgrade p.name E.envs) 300000) ++
          [.blocking (.Cleanup E.envs)], .ok)) ∧
    listContains "❌ Failed to update reference repositories".data
      "Failed to update reference repositories".data = true ∧
    listContains "❌ Failed in finding outdated packages".data
      "Failed in finding outdated packages".data = true ∧
    listContains "❌ Failed to cleanup".data "Failed to cleanup".data = true := by
  refine ⟨?_, ?_, ?_, ?_, by decide, by decide, by decide⟩
  · intro e he
    simp [run_maintenance, update_reference_repositories, he]
  · intro u e hu he
    simp [run_maintenance, update_reference_repositories, find_outdated_packages, hu, he]
  · intro u s o e hu hs ho he
    have h3 := upgradeLoop_trace E 300000 (o.formulae ++ o.casks)
    simp [run_maintenance, update_reference_repositories, find_outdated_packages,
      upgrade_packages_with_timeout, cleanup, OutdatedPackages.iter, hu, hs, ho, he, h3]
  · intro u s o c hu hs ho hc
    have h3 := upgradeLoop_trace E 300000 (o.formulae ++ o.casks)
    simp [run_maintenance, update_reference_repositories, find_outdated_packages,
      upgrade_packages_with_timeout, cleanup, OutdatedPackages.iter, hu, hs, ho, hc, h3]

/-- C2 witness: under `updateFailsExecutor` the refresh phase fails and
`run_maintenance` stops after the single `Update` call with the wrapped
refresh error. -/
theorem run_maintenance_phase_policy_witness :
    run_maintenance updateFailsExecutor jpRejectAll =
      ([.blocking (.Update updateFailsExecutor.envs)],
       .failed "❌ Failed to update reference repositories"
         (.ExecutionFailed "network unreachable")) :=
  (run_maintenance_phase_policy updateFailsExecutor jpRejectAll).1
    (.ExecutionFailed "network unreachable") rfl

/-- C3 counterexample: when the `Outdated` phase hands back text that is not a
well-formed outdated report, `find_outdated_packages` does not surface a decode
error result to the caller — it panics (the `expect` at `src/service.rs` line
25) with message "error on parsing". -/
theorem find_outdated_packages_malformed_cex :
    (find_outdated_packages garbageExecutor jpRejectAll).2 =
      .panicked "error on parsing" ∧
    isRetErr (find_outdated_packages garbageExecutor jpRejectAll).2 = false :=
  ⟨rfl, rfl⟩

/-- C3 (amended): for well-formed input `find_outdated_packages` returns `Ok`
with the decoded report, and an executor error is propagated as `Err`; but for
input that is not a well-formed outdated-report document it panics with
"error on parsing" (aborting the process) instead of returning a decode-error
result. -/
theorem find_outdated_packages_outcomes (E : CommandExecutor)
    (jp : String → Option Json) :
    (∀ e, E.execute (.Outdated E.envs) = .error e →
      (find_outdated_packages E jp).2 = .ret (.error e)) ∧
    (∀ s, E.execute (.Outdated E.envs) = .ok s → fromStr jp s = none →
      (find_outdated_packages E jp).2 = .panicked "error on parsing") ∧
    (∀ s o, E.execute (.Outdated E.envs) = .ok s → fromStr jp s = some o →
      (find_outdated_packages E jp).2 = .ret (.ok o)) := by
  refine ⟨?_, ?_, ?_⟩
  · intro e he
    simp [find_outdated_packages, he]
  · intro s hs hp
    simp [find_outdated_packages, hs, hp]
  · intro s o hs hp
    simp [find_outdated_packages, hs, hp]

/-- C3 witness: the amended panic clause at the concrete malformed input
"not json". -/
theorem find_outdated_packages_outcomes_witness :
    (find_outdated_packages garbageExecutor jpRejectAll).2 =
      .panicked "error on parsing" :=
  (find_outdated_packages_outcomes garbageExecutor jpRejectAll).2.1
    "not json" rfl rfl

/-- Peeling one encoded scalar off the front: the strict decoder returns it and
recurses, and the lossy decoder does the same. -/
theorem utf8EncodeChar_append (c : Nat) (h : ScalarValue c) (rest : List Nat) :
    utf8DecodeList (utf8EncodeChar c ++ rest) = (utf8DecodeList rest).map (c :: ·) ∧
    utf8LossyList (utf8EncodeChar c ++ rest) = c :: utf8LossyList rest := by
  by_cases h1 : c < 0x80
  · have he : utf8EncodeChar c = [c] := by simp [utf8EncodeChar, h1]
    rw [he, List.cons_append, List.nil_append]
    constructor
    · rw [utf8DecodeList, if_pos h1]
    · rw [utf8LossyList, if_pos h1]
  · by_cases h2 : c < 0x800
    · have he : utf8EncodeChar c = [0xC0 + c / 64, 0x80 + c % 64] := by
        simp [utf8EncodeChar, h1, h2]
      have hb0 : ¬ (0xC0 + c / 64 < 0x80) := by omega
      have hb1 : (decide (0xC2 ≤ 0xC0 + c / 64) && decide (0xC0 + c / 64 ≤ 0xDF)) = true := by
        simp only [Bool.and_eq_true, decide_eq_true_eq]
        omega
      have hc1 : isCont (0x80 + c % 64) = true := by
        simp only [isCont, Bool.and_eq_true, decide_eq_true_eq]
        omega
      have hval : (0xC0 + c / 64 - 0xC0) * 64 + (0x80 + c % 64 - 0x80) = c := by omega
      rw [he, List.cons_append, List.cons_append, List.nil_append]
      constructor
      · rw [utf8DecodeList, if_neg hb0, if_pos hb1, utf8Decode2, if_pos hc1, hval]
      · rw [utf8LossyList, if_neg hb0, if_pos hb1, utf8Lossy2, if_pos hc1, hval]
    · by_cases h3 : c < 0x10000
      · have he : utf8EncodeChar c =
            [0xE0 + c / 4096, 0x80 + c / 64 % 64, 0x80 + c % 64] := by
          simp [utf8EncodeChar, h1, h2, h3]
        have hb0 : ¬ (0xE0 + c / 4096 < 0x80) := by omega
        have hn2 : ¬ ((decide (0xC2 ≤ 0xE0 + c / 4096) &&
            decide (0xE0 + c / 4096 ≤ 0xDF)) = true) := by
          simp only [Bool.and_eq_true, decide_eq_true_eq, not_and]
          intro _
          omega
        have hb2 : (decide (0xE0 ≤ 0xE0 + c / 4096) &&
            decide (0xE0 + c / 4096 ≤ 0xEF)) = true := by
          simp only [Bool.and_eq_true, decide_eq_true_eq]
          omega
        have hsec : utf8Second3 (0xE0 + c / 4096) (0x80 + c / 64 % 64) = true := by
          unfold utf8Second3
          rcases h with hlow | ⟨hge, _⟩
          · by_cases hE : c / 4096 = 0
            · rw [if_pos (by omega)]
              simp only [Bool.and_eq_true, decide_eq_true_eq]
              omega
            · rw [if_neg (by omega)]
              by_cases hD : c / 4096 = 13
              · rw [if_pos (by omega)]
                simp only [Bool.and_eq_true, decide_eq_true_eq]
                omega
              · rw [if_neg (by omega)]
                simp only [isCont, Bool.and_eq_true, decide_eq_true_eq]
                omega
          · rw [if_neg (by omega), if_neg (by omega)]
            simp only [isCont, Bool.and_eq_true, decide_eq_true_eq]
            omega
        have hc2 : isCont (0x80 + c / 64 % 64) = true := by
          simp only [isCont, Bool.and_eq_true, decide_eq_true_eq]
          omega
        have hc3 : isCont (0x80 + c % 64) = true := by
          simp only [isCont, Bool.and_eq_true, decide_eq_true_eq]
          omega
        have hcond3 : (utf8Second3 (0xE0 + c / 4096) (0x80 + c / 64 % 64) &&
            isCont (0x80 + c % 64)) = true := by
          rw [hsec, hc3]
          decide
        have hval : (0xE0 + c / 4096 - 0xE0) * 4096 + (0x80 + c / 64 % 64 - 0x80) * 64 +
            (0x80 + c % 64 - 0x80) = c := by omega
        rw [he, List.cons_append, List.cons_append, List.cons_append, List.nil_append]
        constructor
        · rw [utf8DecodeList, if_neg hb0, if_neg hn2, if_pos hb2, utf8Decode3,
            if_pos hcond3, hval]
        · rw [utf8LossyList, if_neg hb0, if_neg hn2, if_pos hb2, utf8Lossy3,
            if_pos hcond3, hval]
      · have hmax : c < 0x110000 := by
          rcases h with hlow | ⟨_, hx⟩ <;> omega
        have he : utf8EncodeChar c =
            [0xF0 + c / 0x40000, 0x80 + c / 4096 % 64, 0x80 + c / 64 % 64, 0x80 + c % 64] := by
          simp [utf8EncodeChar, h1, h2, h3]
        have hb0 : ¬ (0xF0 + c / 0x40000 < 0x80) := by omega
        have hn2 : ¬ ((decide (0xC2 ≤ 0xF0 + c / 0x40000) &&
            decide (0xF0 + c / 0x40000 ≤ 0xDF)) = true) := by
          simp only [Bool.and_eq_true, decide_eq_true_eq, not_and]
          intro _
          omega
        have hn3 : ¬ ((decide (0xE0 ≤ 0xF0 + c / 0x40000) &&
            decide (0xF0 + c / 0x40000 ≤ 0xEF)) = true) := by
          simp only [Bool.and_eq_true, decide_eq_true_eq, not_and]
          intro _
          omega
        have hb3 : (decide (0xF0 ≤ 0xF0 + c / 0x40000) &&
            decide (0xF0 + c / 0x40000 ≤ 0xF4)) = true := by
          simp only [Bool.and_eq_true, decide_eq_true_eq]
          omega
        have hsec : utf8Second4 (0xF0 + c / 0x40000) (0x80 + c / 4096 % 64) = true := by
          unfold utf8Second4
          by_cases hF : c / 0x40000 = 0
          · rw [if_pos (by omega)]
            simp only [Bool.and_eq_true, decide_eq_true_eq]
            omega
          · rw [if_neg (by omega)]
            by_cases hG : c / 0x40000 = 4
            · rw [if_pos (by omega)]
              simp only [Bool.and_eq_true, decide_eq_true_eq]
              omega
            · rw [if_neg (by omega)]
              simp only [isCont, Bool.and_eq_true, decide_eq_true_eq]
              omega
        have hc2 : isCont (0x80 + c / 4096 % 64) = true := by
          simp only [isCont, Bool.and_eq_true, decide_eq_true_eq]
          omega
        have hc3 : isCont (0x80 + c / 64 % 64) = true := by
          simp only [isCont, Bool.and_eq_true, decide_eq_true_eq]
          omega
        have hc4 : isCont (0x80 + c % 64) = true := by
          simp only [isCont, Bool.and_eq_true, decide_eq_true_eq]
          omega
        have hcond4 : (utf8Second4 (0xF0 + c / 0x40000) (0x80 + c / 4096 % 64) &&
            isCont (0x80 + c / 64 % 64) && isCont (0x80 + c % 64)) = true := by
          rw [hsec, hc3, hc4]
          decide
        have hval : (0xF0 + c / 0x40000 - 0xF0) * 0x40000 + (0x80 + c / 4096 % 64 - 0x80) * 4096 +
            (0x80 + c / 64 % 64 - 0x80) * 64 + (0x80 + c % 64 - 0x80) = c := by omega
        rw [he, List.cons_append, List.cons_append, List.cons_append, List.cons_append,
          List.nil_append]
        constructor
        · rw [utf8DecodeList, if_neg hb0, if_neg hn2, if_neg hn3, if_pos hb3, utf8Decode4,
            if_pos hcond4, hval]
        · rw [utf8LossyList, if_neg hb0, if_neg hn2, if_neg hn3, if_pos hb3, utf8Lossy4,
            if_pos hcond4, hval]

/-- Strict decoding inverts encoding on lists of valid scalars. -/
theorem utf8DecodeList_encode (cs : List Nat) (h : ∀ c ∈ cs, ScalarValue c) :
    utf8DecodeList (utf8Encode cs) = some cs := by
  induction cs with
  | nil => rfl
  | cons c cs ih =>
    rw [utf8Encode, List.flatMap_cons]
    rw [(utf8EncodeChar_append c (h c (by simp)) (cs.flatMap utf8EncodeChar)).1]
    rw [show cs.flatMap utf8EncodeChar = utf8Encode cs from rfl]
    rw [ih fun x hx => h x (by simp [hx])]
    rfl

/-- Lossy decoding also inverts encoding on lists of valid scalars. -/
theorem utf8LossyList_encode (cs : List Nat) (h : ∀ c ∈ cs, ScalarValue c) :
    utf8LossyList (utf8Encode cs) = cs := by
  induction cs with
  | nil =>
    rw [show utf8Encode [] = ([] : List Nat) from rfl]
    rw [utf8LossyList]
  | cons c cs ih =>
    rw [utf8Encode, List.flatMap_cons]
    rw [(utf8EncodeChar_append c (h c (by simp)) (cs.flatMap utf8EncodeChar)).2]
    rw [show cs.flatMap utf8EncodeChar = utf8Encode cs from rfl]
    rw [ih fun x hx => h x (by simp [hx])]

/-- C4: the blocking `execute` contract: a spawn failure returns
`ExecutionFailed` carrying the OS error message; an exit-zero child returns the
full captured stdout decoded as UTF-8 (stdout that encodes scalar text `cs`
yields exactly that text), or `ExecutionFailed` carrying the decoder message
when stdout is not valid UTF-8; a non-zero exit returns `ExecutionFailed`
carrying the full stderr text. -/
theorem execute_contract :
    (∀ cmd m, RealBrewCommand.execute cmd (.spawnErr m) = .error (.ExecutionFailed m)) ∧
    (∀ cmd out cs, out.status_success = true → out.stdout = utf8Encode cs →
      (∀ c ∈ cs, ScalarValue c) →
      RealBrewCommand.execute cmd (.spawned out) = .ok (natsToString cs)) ∧
    (∀ cmd out, out.status_success = true → utf8DecodeList out.stdout = none →
      RealBrewCommand.execute cmd (.spawned out) =
        .error (.ExecutionFailed "invalid utf-8 sequence")) ∧
    (∀ cmd out ds, out.status_success = false → out.stderr = utf8Encode ds →
      (∀ c ∈ ds, ScalarValue c) →
      RealBrewCommand.execute cmd (.spawned out) =
        .error (.ExecutionFailed (natsToString ds))) := by
  refine ⟨fun cmd m => rfl, ?_, ?_, ?_⟩
  · intro cmd out cs hsucc hstdout hval
    simp [RealBrewCommand.execute, hsucc, from_utf8, hstdout, utf8DecodeList_encode cs hval]
  · intro cmd out hsucc hdec
    simp [RealBrewCommand.execute, hsucc, from_utf8, hdec]
  · intro cmd out ds hsucc hstderr hval
    simp [RealBrewCommand.execute, hsucc, from_utf8_lossy, hstderr,
      utf8LossyList_encode ds hval]

/-- C4 witness: a successful child whose stdout is the UTF-8 bytes of "hi"
makes `execute` return that text. -/
theorem execute_contract_witness :
    RealBrewCommand.execute (.Update []) (.spawned ⟨true, some 0, [104, 105], []⟩) =
      .ok (natsToString [104, 105]) :=
  execute_contract.2.1 (.Update []) ⟨true, some 0, [104, 105], []⟩ [104, 105]
    rfl (by decide) (by decide)

/-- C8 counterexample: `execute_with_timeout` on `Upgrade` with the empty
package name does not return `ExecutionFailed` before starting the child: with
a world where the OS spawn succeeds (PID 42) and the child completes cleanly,
the call records a spawn of argv `["upgrade", ""]` and returns `Ok`. -/
theorem execute_with_timeout_empty_name_cex :
    RealBrewCommand.execute_with_timeout (.Upgrade "" []) 300000 quietSuccessWorld =
      ([.spawn ["upgrade", ""] [], .killPid 42], .ok ()) := rfl

/-- C8 (amended): the supervised executor applies no empty-name guard: for the
empty package name it always attempts the spawn first (argv ["upgrade", ""]),
and its result is identical to the result for any other package name under the
same world — it is determined only by the spawn outcome, the PID, and the
observed events. -/
theorem execute_with_timeout_no_name_guard (envs : Env) (t : Int) (w : SupvWorld) :
    ((RealBrewCommand.execute_with_timeout (.Upgrade "" envs) t w).1.head? =
      some (.spawn ["upgrade", ""] envs)) ∧
    (∀ n, (RealBrewCommand.execute_with_timeout (.Upgrade n envs) t w).2 =
      (RealBrewCommand.execute_with_timeout (.Upgrade "" envs) t w).2) := by
  rcases w with ⟨sr, pid, inp, ev⟩
  constructor
  · cases sr <;> cases pid <;> cases inp <;>
      simp [RealBrewCommand.execute_with_timeout, RealBrewCommand.spawn_brew_process,
        BrewCommand.to_args, BrewCommand.to_env]
  · intro n
    cases sr <;> cases pid <;> cases inp <;>
      simp [RealBrewCommand.execute_with_timeout, RealBrewCommand.spawn_brew_process,
        BrewCommand.to_args, BrewCommand.to_env]

/-- C9 counterexample: decoding a report whose only item carries pinned=true
and no pinned_version field succeeds, producing a Package with pinned=true and
pinned_version absent — the claimed invariant fails on decoded values. -/
theorem decode_pinned_invariant_cex :
    decodeOutdatedPackages pinnedNoVersionDoc =
      some ⟨[⟨"qux", ["2.0"], "2.3", true, none⟩], []⟩ ∧
    (Package.mk "qux" ["2.0"] "2.3" true none).pinned = true ∧
    (Package.mk "qux" ["2.0"] "2.3" true none).pinned_version = none :=
  ⟨rfl, rfl, rfl⟩

/-- C9 (amended): the decoder is faithful on `pinned_version` rather than
invariant-enforcing: a decoded Package's pinned_version equals the document's
pinned_version field — absent when the field is missing or null, `some s` when
the field is the string `s` — independently of the pinned flag; in particular
pinned=true does not force pinned_version to be present. -/
theorem decodePackage_pinned_version (fields : List (String × Json)) (pkg : Package)
    (h : decodePackage (.obj fields) = some pkg) :
    (getField fields "pinned_version" = none → pkg.pinned_version = none) ∧
    (∀ s, getField fields "pinned_version" = some (.str s) →
      pkg.pinned_version = some s) ∧
    (getField fields "pinned_version" = some .null → pkg.pinned_version = none) := by
  simp only [decodePackage, bind, Option.bind_eq_some] at h
  rcases h with ⟨name, hname, h₂⟩
  rcases h₂ with ⟨iv, hiv, h₃⟩
  rcases h₃ with ⟨cv, hcv, h₄⟩
  rcases h₄ with ⟨p, hp, h₅⟩
  refine ⟨?_, ?_, ?_⟩
  · intro h0
    rw [h0] at h₅
    simp only [Option.some_bind] at h₅
    exact congrArg Package.pinned_version (Option.some.inj h₅).symm
  · intro s h0
    rw [h0] at h₅
    simp only [decodeOptStr, Option.some_bind] at h₅
    exact congrArg Package.pinned_version (Option.some.inj h₅).symm
  · intro h0
    rw [h0] at h₅
    simp only [decodeOptStr, Option.some_bind] at h₅
    exact congrArg Package.pinned_version (Option.some.inj h₅).symm

/-- C9 witness: the amended faithfulness applied at the concrete pinned item
without a pinned_version field: the decoded package has pinned_version
absent. -/
theorem decodePackage_pinned_version_witness :
    (Package.mk "qux" ["2.0"] "2.3" true none).pinned_version = none :=
  (decodePackage_pinned_version
    [("name", .str "qux"), ("installed_versions", .arr [.str "2.0"]),
     ("current_version", .str "2.3"), ("pinned", .bool true)]
    ⟨"qux", ["2.0"], "2.3", true, none⟩ rfl).1 rfl

/-- C6 (code divergence): `main` never propagates a step failure into its exit
status: its exit code is 0 under EVERY oracle, including one where the
`brew update` step exits non-zero — there the failure is only logged and the
remaining steps still run. -/
theorem mainRun_exit_always_zero :
    (∀ osRun, (mainRun osRun).2 = 0) ∧
    mainRun updateFailsOsRun =
      ([.stepFailed "brew update" (from_utf8_lossy (utf8BytesOf "network unreachable")),
        .stepCompleted "brew upgrade", .stepCompleted "brew cleanup"], 0) ∧
    from_utf8_lossy (utf8BytesOf "network unreachable") = "network unreachable" := by
  refine ⟨fun osRun => rfl, rfl, ?_⟩
  have hb : utf8BytesOf "network unreachable" =
      utf8Encode (("network unreachable").data.map Char.toNat) := by decide
  have hval : ∀ c ∈ ("network unreachable").data.map Char.toNat, ScalarValue c := by decide
  rw [from_utf8_lossy, hb, utf8LossyList_encode _ hval]
  decide

end BrewMaintainer
